import Mathlib

/-!
Verification of the slope-statistics subsystem of the amche-goa repository
(`src/data/slope/plot_slope_statistics.py`, `src/data/slope/shape_slope_statistics.py`,
`src/data/slope/dem_slope_processor.py`).

The Python scripts are shallowly embedded below.  Python float arithmetic is
modelled by exact rational arithmetic over `ℚ`; Python's `round(x, n)`
(round-half-even on the exact value) is modelled by `round2` / `round1`;
Python's `int(x)` truncation toward zero is modelled by `truncQ`.  Geometric
primitives computed by external libraries (shapely intersection areas,
rasterio's `geometry_mask` output, parcel footprints) enter the embedding as
explicit inputs — parcel and cell footprints are modelled as axis-aligned
rational boxes, for which the `intersects` predicate is exact.  All control
flow and arithmetic performed by the scripts themselves is translated
directly from the source.
-/

/-- Python `int(x)` for a real value: truncation toward zero.
(`Rat.floor` is used rather than `Int.floor` so the function evaluates by
kernel reduction; the two agree, see `ratFloor_eq`.) -/
def truncQ (q : ℚ) : ℤ := if 0 ≤ q then Rat.floor q else -Rat.floor (-q)

/-- Round-half-even to the nearest integer, the tie-breaking used by Python's
`round` builtin. -/
def roundHalfEven (q : ℚ) : ℤ :=
  if q - Rat.floor q < 1/2 then Rat.floor q
  else if 1/2 < q - Rat.floor q then Rat.floor q + 1
  else if Even (Rat.floor q) then Rat.floor q else Rat.floor q + 1

/-- Python `round(x, 2)` on the exact rational value. -/
def round2 (q : ℚ) : ℚ := (roundHalfEven (q * 100) : ℚ) / 100

/-- Python `round(x, 1)` on the exact rational value. -/
def round1 (q : ℚ) : ℚ := (roundHalfEven (q * 10) : ℚ) / 10

/-- A slope bound that may be `float('inf')`, as used by both scripts'
`SLOPE_CLASSES` tables and by `dem_slope_processor.SLOPE_BANDS`. -/
inductive SlopeVal where
  | fin : ℚ → SlopeVal
  | inf : SlopeVal
deriving Repr, DecidableEq

/-- Python `<` where the right operand may be `float('inf')`. -/
def SlopeVal.ltB : SlopeVal → SlopeVal → Bool
  | .inf, _ => false
  | .fin _, .inf => true
  | .fin a, .fin b => decide (a < b)

/-- Python `<=` where either operand may be `float('inf')`. -/
def SlopeVal.leB : SlopeVal → SlopeVal → Bool
  | _, .inf => true
  | .inf, .fin _ => false
  | .fin a, .fin b => decide (a ≤ b)

/-- `calculate_ewma` from `plot_slope_statistics.py` (lines 110-114): a `None`
previous value seeds the average with the current rate, otherwise the update is
`alpha * current + (1 - alpha) * previous`. -/
def calculate_ewma (current_rate : ℚ) (previous_ewma : Option ℚ) (alpha : ℚ) : ℚ :=
  match previous_ewma with
  | none => current_rate
  | some p => alpha * current_rate + (1 - alpha) * p

/-! ## Area-weighted classifier of `plot_slope_statistics.py`

`calculate_plot_statistics_windowed` (lines 417-654).  The windowed raster
sub-array is a list of rows of slope values, the `geometry_mask` result is a
parallel boolean grid, and the exact UTM intersection area between a window
pixel `(row, col)` and the parcel geometry is given by the input function
`interArea` (the script computes it with shapely; it is a geometric input to
the arithmetic being verified). -/

/-- `SLOPE_CLASSES` of `plot_slope_statistics.py` (lines 81-86): `(min, max)`
bounds per class; the record fields of `PlotStats` carry the class keys. -/
def SLOPE_CLASSES : List (ℚ × SlopeVal) :=
  [(10, .fin 20), (20, .fin 25), (25, .fin 35), (35, .inf)]

/-- `min(min_slope for min_slope, _, _ in SLOPE_CLASSES)` (line 617). -/
def min_classification : ℚ := ((SLOPE_CLASSES.map Prod.fst).min?).getD 0

/-- Membership of a slope value in a class interval `[lo, hi)`
(`(pixel_slopes >= min_slope) & (pixel_slopes < max_slope)`, line 598). -/
def inSlopeClass (lo : ℚ) (hi : SlopeVal) (s : ℚ) : Bool :=
  decide (lo ≤ s) && SlopeVal.ltB (.fin s) hi

/-- The statistics dict built per parcel.  The early no-data returns of the
script do not set the `pct_slope_below_min` key, hence that field is an
`Option`. -/
structure PlotStats where
  shape_area_m2 : ℚ
  has_slope_data : Bool
  pct_slope_10_20 : ℚ
  pct_slope_20_25 : ℚ
  pct_slope_25_35 : ℚ
  pct_slope_35_inf : ℚ
  pct_slope_below_min : Option ℚ
deriving Repr, DecidableEq

/-- The zeroed no-data record (`stats['has_slope_data'] = False` plus zero for
every class key, lines 489-493 / 566-570; also the zeroed record appended on a
parcel-level exception, lines 835-840 and 648-652). -/
def noDataStats (area : ℚ) : PlotStats := ⟨area, false, 0, 0, 0, 0, none⟩

/-- Number of rows and row width of the windowed raster array. -/
def gridShape (g : List (List ℚ)) : ℕ × ℕ := (g.length, (g.headD []).length)

/-- Number of rows and row width of the `geometry_mask` array. -/
def maskShape (m : List (List Bool)) : ℕ × ℕ := (m.length, (m.headD []).length)

/-- `slope_data.size == 0` (line 489). -/
def gridIsEmpty (g : List (List ℚ)) : Bool :=
  decide (g.length = 0) || decide ((g.headD []).length = 0)

/-- The qualifying pixels of the window: mask true, value distinct from the
nodata value when one is set (`valid_mask`, line 518), and exact intersection
area above the `min_area = 0.01` m² noise floor (line 546-548).  Each entry is
the pixel's slope value paired with its intersection area. -/
def validPixels (grid : List (List ℚ)) (nodata : Option ℚ) (mask : List (List Bool))
    (interArea : ℕ → ℕ → ℚ) : List (ℚ × ℚ) :=
  (List.range grid.length).flatMap (fun r =>
    (List.range ((grid.getD r []).length)).filterMap (fun c =>
      if ((mask.getD r []).getD c false &&
          (match nodata with
           | none => true
           | some nd => decide ((grid.getD r []).getD c 0 ≠ nd))) then
        (if 1/100 < interArea r c then some ((grid.getD r []).getD c 0, interArea r c) else none)
      else none))

/-- `np.sum(weights[class_mask]) * 100` rounded to two decimals (lines 597-602)
with `weights = pixel_areas / total_area` (line 578). -/
def classWeightPct (pixels : List (ℚ × ℚ)) (total lo : ℚ) (hi : SlopeVal) : ℚ :=
  round2 (((pixels.filter (fun p => inSlopeClass lo hi p.1)).map (fun p => p.2 / total)).sum * 100)

/-- Weighted percentage of pixels below the minimum classification threshold
(lines 616-620). -/
def belowMinPct (pixels : List (ℚ × ℚ)) (total : ℚ) : ℚ :=
  round2 (((pixels.filter (fun p => decide (p.1 < min_classification))).map
    (fun p => p.2 / total)).sum * 100)

/-- `calculate_plot_statistics_windowed` (lines 417-654): the early returns for
an empty window (line 489), a mask/data shape mismatch (line 510) and no
qualifying pixel (line 566) yield the zeroed no-data record; otherwise the
intersection areas are normalized to weights summing to one and each class
percentage is the rounded weighted share. -/
def calculate_plot_statistics_windowed (slope_data : List (List ℚ)) (nodata : Option ℚ)
    (mask : List (List Bool)) (interArea : ℕ → ℕ → ℚ) (plot_area : ℚ) : PlotStats :=
  if gridIsEmpty slope_data then noDataStats plot_area
  else if ¬ (maskShape mask = gridShape slope_data) then noDataStats plot_area
  else
    let pixels := validPixels slope_data nodata mask interArea
    if pixels.isEmpty then noDataStats plot_area
    else
      let total := (pixels.map Prod.snd).sum
      { shape_area_m2 := plot_area
        has_slope_data := true
        pct_slope_10_20 := classWeightPct pixels total 10 (.fin 20)
        pct_slope_20_25 := classWeightPct pixels total 20 (.fin 25)
        pct_slope_25_35 := classWeightPct pixels total 25 (.fin 35)
        pct_slope_35_inf := classWeightPct pixels total 35 .inf
        pct_slope_below_min := some (belowMinPct pixels total) }

/-- Conclusion of the normalization claim for the classifier: the weights sum
to one and the emitted percentages are non-negative and sum to 100 up to the
two-decimal rounding of the five buckets. -/
def classifierBalanced (slope_data : List (List ℚ)) (nodata : Option ℚ)
    (mask : List (List Bool)) (interArea : ℕ → ℕ → ℚ) (plot_area : ℚ) : Prop :=
  let r := calculate_plot_statistics_windowed slope_data nodata mask interArea plot_area
  let pixels := validPixels slope_data nodata mask interArea
  let total := (pixels.map Prod.snd).sum
  r.has_slope_data = true ∧
  (pixels.map (fun p => p.2 / total)).sum = 1 ∧
  0 ≤ r.pct_slope_10_20 ∧ 0 ≤ r.pct_slope_20_25 ∧
  0 ≤ r.pct_slope_25_35 ∧ 0 ≤ r.pct_slope_35_inf ∧
  ∃ pb, r.pct_slope_below_min = some pb ∧ 0 ≤ pb ∧
    |r.pct_slope_10_20 + r.pct_slope_20_25 + r.pct_slope_25_35 +
      r.pct_slope_35_inf + pb - 100| ≤ 1/40

/-! ## Raster window reader of `plot_slope_statistics.py`

`get_valid_window` (lines 276-307).  A rasterio affine transform with no
rotation is `(a, c, e, f)` (pixel width, x-origin, pixel height — negative for
north-up rasters — and y-origin); `from_bounds` inverts it on the bound
corners. -/

/-- Rectangular world bounds `(minx, miny, maxx, maxy)`. -/
structure BoundsQ where
  left : ℚ
  bottom : ℚ
  right : ℚ
  top : ℚ
deriving Repr, DecidableEq

/-- A north-up affine raster transform: `a` pixel width, `c` x-origin,
`e` pixel height (negative), `f` y-origin. -/
structure AffineQ where
  a : ℚ
  c : ℚ
  e : ℚ
  f : ℚ
deriving Repr, DecidableEq

/-- A float-valued rasterio `Window` as returned by `from_bounds`. -/
structure WindowQ where
  col_off : ℚ
  row_off : ℚ
  width : ℚ
  height : ℚ
deriving Repr, DecidableEq

/-- An integer pixel window (`rasterio.windows.Window`). -/
structure WindowI where
  col_off : ℤ
  row_off : ℤ
  width : ℤ
  height : ℤ
deriving Repr, DecidableEq

/-- `rasterio.windows.from_bounds(left, bottom, right, top, transform)` for a
north-up transform: pixel offsets of the top-left corner and float extent. -/
def from_bounds (b : BoundsQ) (tr : AffineQ) : WindowQ :=
  ⟨(b.left - tr.c) / tr.a, (b.top - tr.f) / tr.e,
   (b.right - b.left) / tr.a, (b.bottom - b.top) / tr.e⟩

/-- The buffered bounds of `get_valid_window` (lines 283-289): each side pushed
out by ten pixels. -/
def buffered_bounds (b : BoundsQ) (tr : AffineQ) : BoundsQ :=
  let buffer_size := max |tr.a| |tr.e| * 10
  ⟨b.left - buffer_size, b.bottom - buffer_size, b.right + buffer_size, b.top + buffer_size⟩

/-- `col_start = max(0, int(window.col_off - 1))` (line 295). -/
def col_start (b : BoundsQ) (tr : AffineQ) : ℤ :=
  max 0 (truncQ ((from_bounds (buffered_bounds b tr) tr).col_off - 1))

/-- `row_start = max(0, int(window.row_off - 1))` (line 296). -/
def row_start (b : BoundsQ) (tr : AffineQ) : ℤ :=
  max 0 (truncQ ((from_bounds (buffered_bounds b tr) tr).row_off - 1))

/-- `col_stop = min(src_shape[1], int(window.col_off + window.width + 2))`
(line 297). -/
def col_stop (b : BoundsQ) (tr : AffineQ) (shape : ℕ × ℕ) : ℤ :=
  min (shape.2 : ℤ) (truncQ ((from_bounds (buffered_bounds b tr) tr).col_off +
    (from_bounds (buffered_bounds b tr) tr).width + 2))

/-- `row_stop = min(src_shape[0], int(window.row_off + window.height + 2))`
(line 298). -/
def row_stop (b : BoundsQ) (tr : AffineQ) (shape : ℕ × ℕ) : ℤ :=
  min (shape.1 : ℤ) (truncQ ((from_bounds (buffered_bounds b tr) tr).row_off +
    (from_bounds (buffered_bounds b tr) tr).height + 2))

/-- `get_valid_window` (lines 276-307): the clamped window of positive size and
the windowed affine transform `rasterio.windows.transform(valid_window,
src_transform)`. -/
def get_valid_window (b : BoundsQ) (tr : AffineQ) (shape : ℕ × ℕ) : WindowI × AffineQ :=
  (⟨col_start b tr, row_start b tr,
    max 1 (col_stop b tr shape - col_start b tr),
    max 1 (row_stop b tr shape - row_start b tr)⟩,
   ⟨tr.a, tr.c + (col_start b tr : ℚ) * tr.a, tr.e, tr.f + (row_start b tr : ℚ) * tr.e⟩)

/-- What `get_valid_window` actually guarantees: non-negative offsets, positive
size, containment in the raster except through the degenerate size-one
fallback, and one-pixel padding on every side that is not clamped at a raster
edge. -/
def windowSafe (b : BoundsQ) (tr : AffineQ) (shape : ℕ × ℕ) : Prop :=
  let w := (get_valid_window b tr shape).1
  0 ≤ w.col_off ∧ 0 ≤ w.row_off ∧ 1 ≤ w.width ∧ 1 ≤ w.height ∧
  (w.col_off + w.width ≤ (shape.2 : ℤ) ∨ w.width = 1) ∧
  (w.row_off + w.height ≤ (shape.1 : ℤ) ∨ w.height = 1) ∧
  (0 < w.col_off → (w.col_off : ℚ) + 1 < (b.left - tr.c) / tr.a) ∧
  (0 < w.row_off → (w.row_off : ℚ) + 1 < (b.top - tr.f) / tr.e) ∧
  (w.col_off + w.width < (shape.2 : ℤ) →
    (b.right - tr.c) / tr.a + 1 < ((w.col_off + w.width : ℤ) : ℚ)) ∧
  (w.row_off + w.height < (shape.1 : ℤ) →
    (b.bottom - tr.f) / tr.e + 1 < ((w.row_off + w.height : ℤ) : ℚ))

/-! ## Spatial partitioners

`create_spatial_index` of `plot_slope_statistics.py` (lines 203-268) and
`create_spatial_groups` of `shape_slope_statistics.py` (lines 88-151).
Parcel footprints are modelled as axis-aligned boxes; for such geometries
shapely's `intersects` against a grid-cell box is exactly box overlap. -/

/-- An axis-aligned rectangle in world coordinates. -/
structure Box where
  minx : ℚ
  miny : ℚ
  maxx : ℚ
  maxy : ℚ
deriving Repr, DecidableEq

/-- Shapely `intersects` for two boxes (touching counts). -/
def boxIntersects (p q : Box) : Bool :=
  decide (p.minx ≤ q.maxx) && decide (q.minx ≤ p.maxx) &&
  decide (p.miny ≤ q.maxy) && decide (q.miny ≤ p.maxy)

/-- `gdf.total_bounds`: the envelope of all parcel boxes. -/
def totalBounds : List Box → Box
  | [] => ⟨0, 0, 0, 0⟩
  | p :: ps => ps.foldl (fun acc q =>
      ⟨min acc.minx q.minx, min acc.miny q.miny, max acc.maxx q.maxx, max acc.maxy q.maxy⟩) p

/-- Intersection of parcel envelope and raster bounds (lines 218-222). -/
def interBounds (parcels : List Box) (raster : Box) : Box :=
  let pb := totalBounds parcels
  ⟨max pb.minx raster.minx, max pb.miny raster.miny,
   min pb.maxx raster.maxx, min pb.maxy raster.maxy⟩

/-- The `grid_size × grid_size` cells of `create_spatial_index` in traversal
order (`for i: for j:`, lines 240-253), each paired as (buffered cell used for
the intersection test, plain cell bounds stored with the group). -/
def gridCells (parcels : List Box) (raster : Box) (grid_size : ℕ) (buffer_size : ℚ) :
    List (Box × Box) :=
  let ib := interBounds parcels raster
  let cw := (ib.maxx - ib.minx) / grid_size
  let ch := (ib.maxy - ib.miny) / grid_size
  (List.range grid_size).flatMap (fun i =>
    (List.range grid_size).map (fun j =>
      let cminx := ib.minx + (i : ℚ) * cw
      let cminy := ib.miny + (j : ℚ) * ch
      (⟨cminx - buffer_size, cminy - buffer_size, cminx + cw + buffer_size, cminy + ch + buffer_size⟩,
       ⟨cminx, cminy, cminx + cw, cminy + ch⟩)))

/-- The not-yet-claimed parcels intersecting a (buffered) grid cell
(`new_plots` of lines 258-260 / `new_indices` of line 133). -/
def newPlots (parcels : List Box) (claimed : List ℕ) (cell : Box) : List ℕ :=
  (List.range parcels.length).filter
    (fun k => boxIntersects (parcels.getD k ⟨0, 0, 0, 0⟩) cell && !(decide (k ∈ claimed)))

/-- One grid-cell step of the claiming loop (lines 255-265): parcels
intersecting the buffered cell that are not yet claimed join a new group, and
the claimed set grows accordingly. -/
def claimStep (parcels : List Box) (acc : List (List ℕ × Box) × List ℕ) (cell : Box × Box) :
    List (List ℕ × Box) × List ℕ :=
  if (newPlots parcels acc.2 cell.1).isEmpty then acc
  else (acc.1 ++ [(newPlots parcels acc.2 cell.1, cell.2)], acc.2 ++ newPlots parcels acc.2 cell.1)

/-- The spatial groups built by the claiming loop of `create_spatial_index`. -/
def buildGroups (parcels : List Box) (raster : Box) (grid_size : ℕ) (buffer_size : ℚ) :
    List (List ℕ × Box) :=
  ((gridCells parcels raster grid_size buffer_size).foldl (claimStep parcels) ([], [])).1

/-- `create_spatial_index` (lines 203-268): raises `ValueError` when the parcel
envelope and the raster bounds do not overlap (line 224-225), otherwise returns
the claimed spatial groups in grid traversal order. -/
def create_spatial_index (parcels : List Box) (raster : Box) (grid_size : ℕ)
    (buffer_size : ℚ) : Except String (List (List ℕ × Box)) :=
  let ib := interBounds parcels raster
  if ib.maxx ≤ ib.minx ∨ ib.maxy ≤ ib.miny then
    .error "No overlap between plots and raster data"
  else
    .ok (buildGroups parcels raster grid_size buffer_size)

/-- The multiset of parcel indices over all groups of `create_spatial_index`. -/
def groupUnion (groups : List (List ℕ × Box)) : List ℕ := (groups.map Prod.fst).flatten

/-- The `cols × rows` grid cells of `create_spatial_groups`
(`shape_slope_statistics.py` lines 121-129, `for i in range(cols): for j in
range(rows)`); the grid dimensions are inputs here (the script derives them
from the worker count and the aspect ratio with floating sqrt/ceil,
lines 105-113). -/
def shapeCells (parcels : List Box) (cols rows : ℕ) : List Box :=
  let tb := totalBounds parcels
  let cw := (tb.maxx - tb.minx) / cols
  let ch := (tb.maxy - tb.miny) / rows
  (List.range cols).flatMap (fun i =>
    (List.range rows).map (fun j =>
      ⟨tb.minx + (i : ℚ) * cw, tb.miny + (j : ℚ) * ch,
       tb.minx + (i : ℚ) * cw + cw, tb.miny + (j : ℚ) * ch + ch⟩))

/-- One grid-cell step of the claiming loop of `create_spatial_groups`
(lines 131-137): unclaimed parcels intersecting the cell form a new group. -/
def claimStepS (parcels : List Box) (acc : List (List ℕ) × List ℕ) (cell : Box) :
    List (List ℕ) × List ℕ :=
  if (newPlots parcels acc.2 cell).isEmpty then acc
  else (acc.1 ++ [newPlots parcels acc.2 cell], acc.2 ++ newPlots parcels acc.2 cell)

/-- The claiming loop of `create_spatial_groups` over all grid cells. -/
def shapeFold (parcels : List Box) (cols rows : ℕ) : List (List ℕ) × List ℕ :=
  (shapeCells parcels cols rows).foldl (claimStepS parcels) ([], [])

/-- `missed_indices = set(plots.index) - processed_indices` (line 140). -/
def missedIndices (parcels : List Box) (cols rows : ℕ) : List ℕ :=
  (List.range parcels.length).filter (fun k => !(decide (k ∈ (shapeFold parcels cols rows).2)))

/-- `create_spatial_groups` (lines 88-151): grid claiming followed by the
missed-parcels fallback (lines 139-142) that appends every unclaimed parcel as
a final group. -/
def create_spatial_groups (parcels : List Box) (cols rows : ℕ) : List (List ℕ) :=
  if (missedIndices parcels cols rows).isEmpty then (shapeFold parcels cols rows).1
  else (shapeFold parcels cols rows).1 ++ [missedIndices parcels cols rows]

/-! ## Parallel group executor of `plot_slope_statistics.py`

`process_spatial_group` (lines 751-900).  The per-parcel `try` of
lines 776-831 does not end at `results.append(stats)` (line 798): it also
covers the progress-update and checkpoint-save calls of lines 800-830, and an
exception raised there — e.g. the `NameError` from the unimported `traceback`
at `save_group_progress` lines 714/749 when a checkpoint write fails — is
caught by the parcel-local `except` of lines 832-840, which then appends a
second, zeroed record for the parcel whose statistics were already appended.
The outer `except` (lines 888-898) pads the result list with
`len(plots_group) - len(results)` zeroed records; `interrupt = some k` models
a group-level exception striking after `k` completed iterations. -/

/-- Outcome of one iteration of the parcel loop: `ok` is a normal iteration
(one record appended, line 798); `fail` is an exception before the append
(one zeroed record appended, lines 832-840); `okThenFail` is an exception in
the post-append section of the same `try` (lines 800-830), after which the
handler of lines 832-840 appends a second, zeroed record for the same
parcel. -/
inductive PlotOutcome where
  | ok : PlotStats → PlotOutcome
  | fail : PlotOutcome
  | okThenFail : PlotStats → PlotOutcome
deriving Repr, DecidableEq

/-- Whether the iteration hit the post-append error path that duplicates the
parcel's row. -/
def PlotOutcome.isDup : PlotOutcome → Bool
  | .okThenFail _ => true
  | _ => false

/-- The records appended to `results` by one iteration of the parcel loop. -/
def iterationRecords : PlotOutcome → List PlotStats
  | .ok s => [s]
  | .fail => [noDataStats 0]
  | .okThenFail s => [s, noDataStats 0]

/-- `process_spatial_group`, result-list shape: the records of the completed
iterations, plus — only under a group-level exception — zeroed padding for
`len(plots_group) - len(results)` parcels (lines 888-898; a result list that
is already at least as long as the group gets no padding, `range` of a
non-positive count being empty, matching truncated subtraction). -/
def process_spatial_group (outcomes : List PlotOutcome) (interrupt : Option ℕ) :
    List PlotStats :=
  match interrupt with
  | none => (outcomes.map iterationRecords).flatten
  | some k =>
      ((outcomes.take k).map iterationRecords).flatten ++
        List.replicate
          (outcomes.length - (((outcomes.take k).map iterationRecords).flatten).length)
          (noDataStats 0)

/-! ## Vector-variant classifier of `shape_slope_statistics.py`

`process_plot_group` (lines 185-443), per-parcel body.  The plot's UTM area
and the list of intersecting slope zones (each with its `slope_min`/`slope_max`
attributes and its exact UTM intersection area with the plot, a geometric
input) determine the per-class area columns. -/

/-- The five per-class area accumulators (`SLOPE_CLASSES` of
`shape_slope_statistics.py`, lines 43-49). -/
structure ClassAreas where
  a0_10 : ℚ
  a10_20 : ℚ
  a20_25 : ℚ
  a25_35 : ℚ
  a35_inf : ℚ
deriving Repr, DecidableEq

/-- Sum of the five class-area accumulators. -/
def ClassAreas.total (c : ClassAreas) : ℚ := c.a0_10 + c.a10_20 + c.a20_25 + c.a25_35 + c.a35_inf

/-- All five class-area accumulators non-negative. -/
def ClassAreas.Nonneg (c : ClassAreas) : Prop :=
  0 ≤ c.a0_10 ∧ 0 ≤ c.a10_20 ∧ 0 ≤ c.a20_25 ∧ 0 ≤ c.a25_35 ∧ 0 ≤ c.a35_inf

/-- An intersecting slope zone: its `slope_min`/`slope_max` band and the exact
UTM area of its geometric intersection with the plot. -/
structure ZoneRec where
  slope_min : ℚ
  slope_max : SlopeVal
  inter_area : ℚ
deriving Repr, DecidableEq

/-- The class test of lines 291-293: `(slope_min >= min_val and slope_min <
max_val) or (slope_max > min_val and slope_max <= max_val) or (slope_min <=
min_val and slope_max >= max_val)`. -/
def overlapsClass (zmin : ℚ) (zmax : SlopeVal) (cmin : ℚ) (cmax : SlopeVal) : Bool :=
  (decide (cmin ≤ zmin) && SlopeVal.ltB (.fin zmin) cmax) ||
  (SlopeVal.ltB (.fin cmin) zmax && SlopeVal.leB zmax cmax) ||
  (decide (zmin ≤ cmin) && SlopeVal.leB cmax zmax)

/-- Processing one zone (lines 283-343): for each slope class whose interval
the zone matches, the zone's whole intersection area is added to that class and
to `total_slope_area`; the five classes are visited in `SLOPE_CLASSES` order. -/
def addZone (acc : ClassAreas × ℚ) (z : ZoneRec) : ClassAreas × ℚ :=
  let s1 := if overlapsClass z.slope_min z.slope_max 0 (.fin 10) then
    ({acc.1 with a0_10 := acc.1.a0_10 + z.inter_area}, acc.2 + z.inter_area) else acc
  let s2 := if overlapsClass z.slope_min z.slope_max 10 (.fin 20) then
    ({s1.1 with a10_20 := s1.1.a10_20 + z.inter_area}, s1.2 + z.inter_area) else s1
  let s3 := if overlapsClass z.slope_min z.slope_max 20 (.fin 25) then
    ({s2.1 with a20_25 := s2.1.a20_25 + z.inter_area}, s2.2 + z.inter_area) else s2
  let s4 := if overlapsClass z.slope_min z.slope_max 25 (.fin 35) then
    ({s3.1 with a25_35 := s3.1.a25_35 + z.inter_area}, s3.2 + z.inter_area) else s3
  let s5 := if overlapsClass z.slope_min z.slope_max 35 .inf then
    ({s4.1 with a35_inf := s4.1.a35_inf + z.inter_area}, s4.2 + z.inter_area) else s4
  s5

/-- The zone loop of `process_plot_group` (lines 283-343): class-area
accumulators and `total_slope_area`. -/
def accumulateZones (zones : List ZoneRec) : ClassAreas × ℚ :=
  zones.foldl addZone (⟨0, 0, 0, 0, 0⟩, 0)

/-- `SLOPE_BANDS` of `dem_slope_processor.py` (lines 90-95), the band
configuration of the slope-zone polygons consumed by
`shape_slope_statistics.py`. -/
def SLOPE_BANDS : List (ℚ × SlopeVal) :=
  [(10, .fin 20), (20, .fin 25), (25, .fin 50), (50, .inf)]

/-- The per-plot result columns of `process_plot_group`. -/
structure ShapeStats where
  slope_0_10_area_m2 : ℚ
  slope_10_20_area_m2 : ℚ
  slope_20_25_area_m2 : ℚ
  slope_25_35_area_m2 : ℚ
  slope_35_inf_area_m2 : ℚ
  slope_0_10_percent : ℚ
  slope_10_20_percent : ℚ
  slope_20_25_percent : ℚ
  slope_25_35_percent : ℚ
  slope_35_inf_percent : ℚ
  total_area_m2 : ℚ
  has_slope_data : Bool
  geometry_valid : Bool
  steep_slope_percent : ℚ
  steep_slope_area_m2 : ℚ
deriving Repr, DecidableEq

/-- The normalization of lines 389-401: when the accumulated slope area
disagrees with the plot total by more than 5% (and is positive), every class
area is rescaled by `total_area_m2 / total_slope_area` and rounded to one
decimal. -/
def normalizeAreas (total_area_m2 total_slope_area : ℚ) (ca : ClassAreas) : ClassAreas :=
  if 5 < |total_slope_area - total_area_m2| / total_area_m2 * 100 ∧ 0 < total_slope_area then
    ⟨round1 (ca.a0_10 * (total_area_m2 / total_slope_area)),
     round1 (ca.a10_20 * (total_area_m2 / total_slope_area)),
     round1 (ca.a20_25 * (total_area_m2 / total_slope_area)),
     round1 (ca.a25_35 * (total_area_m2 / total_slope_area)),
     round1 (ca.a35_inf * (total_area_m2 / total_slope_area))⟩
  else ca

/-- The one-decimal rounding of all class areas (lines 409-413). -/
def roundAreas (ca : ClassAreas) : ClassAreas :=
  ⟨round1 ca.a0_10, round1 ca.a10_20, round1 ca.a20_25, round1 ca.a25_35, round1 ca.a35_inf⟩

/-- `round((area_m2 / total_area_m2) * 100, 1)` (lines 417-420). -/
def areaPercent (total_area_m2 a : ℚ) : ℚ := round1 (a / total_area_m2 * 100)

/-- The result row of a successfully processed plot: final class areas,
percentages, and the steep-slope fields summing the two classes with
`min_val >= 25` (lines 415-429). -/
def shapeResult (total_area_m2 : ℚ) (ca3 : ClassAreas) : ShapeStats :=
  ⟨ca3.a0_10, ca3.a10_20, ca3.a20_25, ca3.a25_35, ca3.a35_inf,
   areaPercent total_area_m2 ca3.a0_10, areaPercent total_area_m2 ca3.a10_20,
   areaPercent total_area_m2 ca3.a20_25, areaPercent total_area_m2 ca3.a25_35,
   areaPercent total_area_m2 ca3.a35_inf,
   total_area_m2, true, true,
   round1 (areaPercent total_area_m2 ca3.a25_35 + areaPercent total_area_m2 ca3.a35_inf),
   round1 ((areaPercent total_area_m2 ca3.a25_35 + areaPercent total_area_m2 ca3.a35_inf)
     / 100 * total_area_m2)⟩

/-- Per-parcel body of `process_plot_group` (lines 212-429): accumulate zone
intersection areas per class; drop to no-data when there is no intersecting
zone, when the accumulated slope area is zero (lines 384-387), or when the
total area is zero (lines 402-407); otherwise rescale when areas disagree by
more than 5%, round to one decimal, and derive percentages and the steep-slope
fields. -/
def process_plot_group_step (total_area_m2 : ℚ) (zones : List ZoneRec) : ShapeStats :=
  if zones.isEmpty then
    ⟨0, 0, 0, 0, 0, 0, 0, 0, 0, 0, total_area_m2, false, true, 0, 0⟩
  else if (accumulateZones zones).2 = 0 then
    ⟨(accumulateZones zones).1.a0_10, (accumulateZones zones).1.a10_20,
     (accumulateZones zones).1.a20_25, (accumulateZones zones).1.a25_35,
     (accumulateZones zones).1.a35_inf,
     0, 0, 0, 0, 0, total_area_m2, false, true, 0, 0⟩
  else if 0 < total_area_m2 then
    shapeResult total_area_m2
      (roundAreas (normalizeAreas total_area_m2 (accumulateZones zones).2 (accumulateZones zones).1))
  else
    ⟨(accumulateZones zones).1.a0_10, (accumulateZones zones).1.a10_20,
     (accumulateZones zones).1.a20_25, (accumulateZones zones).1.a25_35,
     (accumulateZones zones).1.a35_inf,
     0, 0, 0, 0, 0, total_area_m2, false, true, 0, 0⟩

/-- Sum of the five class-area columns of a result row. -/
def shapeAreaSum (r : ShapeStats) : ℚ :=
  r.slope_0_10_area_m2 + r.slope_10_20_area_m2 + r.slope_20_25_area_m2 +
  r.slope_25_35_area_m2 + r.slope_35_inf_area_m2

/-! ## Theorems -/

theorem ratFloor_eq (q : ℚ) : Rat.floor q = ⌊q⌋ := by
  rw [Rat.floor_def', Rat.floor_def]

theorem abs_roundHalfEven_sub_le (q : ℚ) : |(roundHalfEven q : ℚ) - q| ≤ 1/2 := by
  have hfl : (⌊q⌋ : ℚ) ≤ q := Int.floor_le q
  have hlt : q < (⌊q⌋ : ℚ) + 1 := Int.lt_floor_add_one q
  unfold roundHalfEven
  rw [ratFloor_eq]
  split_ifs with h1 h2 h3 <;> rw [abs_le] <;> constructor <;> push_cast <;> linarith

theorem roundHalfEven_nonneg (q : ℚ) (h : 0 ≤ q) : 0 ≤ roundHalfEven q := by
  have hfl : (0 : ℤ) ≤ ⌊q⌋ := Int.floor_nonneg.mpr h
  unfold roundHalfEven
  rw [ratFloor_eq]
  split_ifs <;> omega

theorem roundHalfEven_intCast (n : ℤ) : roundHalfEven (n : ℚ) = n := by
  unfold roundHalfEven
  rw [ratFloor_eq]
  simp

theorem abs_round2_sub_le (q : ℚ) : |round2 q - q| ≤ 1/200 := by
  have h := abs_roundHalfEven_sub_le (q * 100)
  unfold round2
  rw [show (roundHalfEven (q * 100) : ℚ) / 100 - q =
    ((roundHalfEven (q * 100) : ℚ) - q * 100) / 100 by ring, abs_div]
  calc |(roundHalfEven (q * 100) : ℚ) - q * 100| / |(100:ℚ)|
      = |(roundHalfEven (q * 100) : ℚ) - q * 100| / 100 := by norm_num
    _ ≤ (1/2) / 100 := by gcongr
    _ = 1/200 := by norm_num

theorem round2_nonneg (q : ℚ) (h : 0 ≤ q) : 0 ≤ round2 q := by
  unfold round2
  have := roundHalfEven_nonneg (q * 100) (by positivity)
  positivity

theorem abs_round1_sub_le (q : ℚ) : |round1 q - q| ≤ 1/20 := by
  have h := abs_roundHalfEven_sub_le (q * 10)
  unfold round1
  rw [show (roundHalfEven (q * 10) : ℚ) / 10 - q =
    ((roundHalfEven (q * 10) : ℚ) - q * 10) / 10 by ring, abs_div]
  calc |(roundHalfEven (q * 10) : ℚ) - q * 10| / |(10:ℚ)|
      = |(roundHalfEven (q * 10) : ℚ) - q * 10| / 10 := by norm_num
    _ ≤ (1/2) / 10 := by gcongr
    _ = 1/20 := by norm_num

theorem round1_nonneg (q : ℚ) (h : 0 ≤ q) : 0 ≤ round1 q := by
  unfold round1
  have := roundHalfEven_nonneg (q * 10) (by positivity)
  positivity

theorem round1_intCast_div (n : ℤ) : round1 ((n : ℚ) / 10) = (n : ℚ) / 10 := by
  unfold round1
  rw [div_mul_cancel₀ _ (by norm_num : (10:ℚ) ≠ 0), roundHalfEven_intCast]

theorem round1_idem (q : ℚ) : round1 (round1 q) = round1 q :=
  round1_intCast_div (roundHalfEven (q * 10))

theorem truncQ_gt (q : ℚ) : q - 1 < (truncQ q : ℚ) := by
  unfold truncQ
  split_ifs with h
  · rw [ratFloor_eq]
    exact Int.sub_one_lt_floor q
  · rw [ratFloor_eq]
    have : (⌊-q⌋ : ℚ) ≤ -q := Int.floor_le (-q)
    push_cast
    linarith

theorem truncQ_le_of_pos (q : ℚ) (h : 0 < truncQ q) : (truncQ q : ℚ) ≤ q := by
  unfold truncQ at h ⊢
  split_ifs at h ⊢ with h0
  · rw [ratFloor_eq]
    exact Int.floor_le q
  · exfalso
    rw [ratFloor_eq] at h
    have : (0 : ℤ) ≤ ⌊-q⌋ := Int.floor_nonneg.mpr (by linarith [lt_of_not_ge h0])
    omega

theorem validPixels_eq_nil (grid : List (List ℚ)) (nodata : Option ℚ)
    (mask : List (List Bool)) (interArea : ℕ → ℕ → ℚ)
    (h : ∀ r c, interArea r c ≤ 1/100) :
    validPixels grid nodata mask interArea = [] := by
  unfold validPixels
  rw [List.flatMap_eq_nil_iff]
  intro r _
  rw [List.filterMap_eq_nil_iff]
  intro c _
  have hrc : ¬ (1/100 < interArea r c) := not_lt.mpr (h r c)
  rw [if_neg hrc, ite_self]

/-- C2: whenever no window pixel reaches an intersection area above the 0.01 m²
noise floor — which covers a parcel with zero intersecting raster cells, a
degenerate empty geometry (all intersection areas zero) and a zero-area parcel
— the classifier returns `has_slope_data = false` with every slope-class
percentage equal to 0, on every code path (the embedding is total, mirroring
the catch-all `except` of lines 644-654 that converts any error into the same
zeroed record). -/
theorem claim_c2_no_data_guard (slope_data : List (List ℚ)) (nodata : Option ℚ)
    (mask : List (List Bool)) (interArea : ℕ → ℕ → ℚ) (plot_area : ℚ)
    (h : ∀ r c, interArea r c ≤ 1/100) :
    (calculate_plot_statistics_windowed slope_data nodata mask interArea plot_area).has_slope_data
        = false ∧
    (calculate_plot_statistics_windowed slope_data nodata mask interArea plot_area).pct_slope_10_20
        = 0 ∧
    (calculate_plot_statistics_windowed slope_data nodata mask interArea plot_area).pct_slope_20_25
        = 0 ∧
    (calculate_plot_statistics_windowed slope_data nodata mask interArea plot_area).pct_slope_25_35
        = 0 ∧
    (calculate_plot_statistics_windowed slope_data nodata mask interArea plot_area).pct_slope_35_inf
        = 0 := by
  have hnil := validPixels_eq_nil slope_data nodata mask interArea h
  unfold calculate_plot_statistics_windowed
  rw [hnil]
  simp [noDataStats]

/-- Witness for C2 at a concrete input: a constant-zero intersection-area
function (as with an empty parcel geometry) over a one-pixel window. -/
theorem claim_c2_no_data_guard_witness :
    (∀ r c : ℕ, (fun _ _ => (0:ℚ)) r c ≤ 1/100) ∧
    ((calculate_plot_statistics_windowed [[15]] none [[true]] (fun _ _ => (0:ℚ)) 100).has_slope_data
        = false ∧
     (calculate_plot_statistics_windowed [[15]] none [[true]] (fun _ _ => (0:ℚ)) 100).pct_slope_10_20
        = 0 ∧
     (calculate_plot_statistics_windowed [[15]] none [[true]] (fun _ _ => (0:ℚ)) 100).pct_slope_20_25
        = 0 ∧
     (calculate_plot_statistics_windowed [[15]] none [[true]] (fun _ _ => (0:ℚ)) 100).pct_slope_25_35
        = 0 ∧
     (calculate_plot_statistics_windowed [[15]] none [[true]] (fun _ _ => (0:ℚ)) 100).pct_slope_35_inf
        = 0) :=
  ⟨fun _ _ => by norm_num,
   claim_c2_no_data_guard [[15]] none [[true]] (fun _ _ => (0:ℚ)) 100 (fun _ _ => by norm_num)⟩

theorem getD_replicate_self {α : Type} (n i : ℕ) (a : α) :
    (List.replicate n a).getD i a = a := by
  induction n generalizing i with
  | zero => simp [List.getD]
  | succ n ih =>
    cases i with
    | zero => simp [List.replicate]
    | succ i => simp only [List.replicate, List.getD_cons_succ]; exact ih i

theorem iterationRecords_length_pos (o : PlotOutcome) :
    1 ≤ (iterationRecords o).length := by
  cases o <;> simp [iterationRecords]

theorem flatten_iterationRecords_length_ge (l : List PlotOutcome) :
    l.length ≤ ((l.map iterationRecords).flatten).length := by
  induction l with
  | nil => simp
  | cons o rest ih =>
    simp only [List.map_cons, List.flatten_cons, List.length_append, List.length_cons]
    have h := iterationRecords_length_pos o
    omega

theorem flatten_iterationRecords_length_eq (l : List PlotOutcome)
    (h : ∀ o ∈ l, o.isDup = false) :
    ((l.map iterationRecords).flatten).length = l.length := by
  induction l with
  | nil => simp
  | cons o rest ih =>
    simp only [List.map_cons, List.flatten_cons, List.length_append, List.length_cons]
    have ho := h o (List.mem_cons_self o rest)
    have hrec : (iterationRecords o).length = 1 := by
      cases o <;> simp_all [iterationRecords, PlotOutcome.isDup]
    rw [hrec, ih (fun w hw => h w (List.mem_cons_of_mem o hw))]
    omega

/-- C8 (amended): the group executor returns at least one statistics record
per input parcel, and exactly one per parcel provided no iteration hits the
post-append error path (an exception in the progress/checkpoint section after
`results.append`, whose parcel-local handler appends a duplicate zeroed
record — see the counterexample); after a group-level interruption every
record beyond the completed iterations is the zeroed
`has_slope_data = false` padding. -/
theorem claim_c8_rows_amended :
    (∀ (outcomes : List PlotOutcome) (interrupt : Option ℕ),
      outcomes.length ≤ (process_spatial_group outcomes interrupt).length) ∧
    (∀ (outcomes : List PlotOutcome) (interrupt : Option ℕ),
      (∀ o ∈ outcomes, o.isDup = false) →
      (process_spatial_group outcomes interrupt).length = outcomes.length) ∧
    (∀ (outcomes : List PlotOutcome) (k i : ℕ),
      (((outcomes.take k).map iterationRecords).flatten).length ≤ i →
      (process_spatial_group outcomes (some k)).getD i (noDataStats 0) = noDataStats 0 ∧
      (noDataStats 0).has_slope_data = false) := by
  refine ⟨?_, ?_, ?_⟩
  · intro outcomes interrupt
    match interrupt with
    | none => exact flatten_iterationRecords_length_ge outcomes
    | some k =>
      simp only [process_spatial_group, List.length_append, List.length_replicate]
      omega
  · intro outcomes interrupt h
    match interrupt with
    | none => exact flatten_iterationRecords_length_eq outcomes h
    | some k =>
      have hk : (((outcomes.take k).map iterationRecords).flatten).length
          = (outcomes.take k).length :=
        flatten_iterationRecords_length_eq _ (fun o ho => h o (List.mem_of_mem_take ho))
      simp only [process_spatial_group, List.length_append, List.length_replicate, hk,
        List.length_take]
      omega
  · intro outcomes k i hi
    refine ⟨?_, rfl⟩
    simp only [process_spatial_group]
    rw [List.getD_append_right]
    · exact getD_replicate_self _ _ _
    · exact hi

/-- Witness for C8 at a concrete input: three parcels with no post-append
failure — one parcel-local failure among them — and a group-level interruption
after the first iteration; the group still gets exactly one row per parcel and
zeroed padding. -/
theorem claim_c8_rows_amended_witness :
    (∀ o ∈ [PlotOutcome.ok (noDataStats 5), PlotOutcome.fail,
        PlotOutcome.ok (noDataStats 7)], o.isDup = false) ∧
    (process_spatial_group [PlotOutcome.ok (noDataStats 5), PlotOutcome.fail,
        PlotOutcome.ok (noDataStats 7)] (some 1)).length = 3 ∧
    (process_spatial_group [PlotOutcome.ok (noDataStats 5), PlotOutcome.fail,
        PlotOutcome.ok (noDataStats 7)] (some 1)).getD 2 (noDataStats 0) = noDataStats 0 :=
  ⟨by decide,
   Eq.trans
     (claim_c8_rows_amended.2.1 [PlotOutcome.ok (noDataStats 5), PlotOutcome.fail,
        PlotOutcome.ok (noDataStats 7)] (some 1) (by decide)) rfl,
   (claim_c8_rows_amended.2.2 [PlotOutcome.ok (noDataStats 5), PlotOutcome.fail,
      PlotOutcome.ok (noDataStats 7)] 1 2 (by decide)).1⟩

/-- Counterexample to C8 as stated: a group of one parcel whose iteration
appends its record and then fails in the progress/checkpoint section (for
instance through the checkpoint-write `NameError` of the unimported
`traceback` in `save_group_progress`): the parcel-local handler appends a
second, zeroed record, and the group returns two rows for its single input
parcel — not exactly one record per parcel. -/
theorem claim_c8_rows_counterexample :
    process_spatial_group [PlotOutcome.okThenFail (noDataStats 5)] none
      = [noDataStats 5, noDataStats 0] ∧
    (process_spatial_group [PlotOutcome.okThenFail (noDataStats 5)] none).length = 2 ∧
    ¬ ((process_spatial_group [PlotOutcome.okThenFail (noDataStats 5)] none).length
        = [PlotOutcome.okThenFail (noDataStats 5)].length) := by
  decide

/-- C9: a slope zone whose band straddles more than one slope class — such as
the 25-50 band present in `dem_slope_processor.SLOPE_BANDS` — has its entire
intersection area added in full both to the 25-35 class and to the 35-∞ class,
so `total_slope_area` (the pre-normalization sum of class areas) is twice the
zone's actual intersection area and exceeds it. -/
theorem claim_c9_zone_double_count (a : ℚ) (ha : 0 < a) :
    (25, SlopeVal.fin 50) ∈ SLOPE_BANDS ∧
    (accumulateZones [⟨25, .fin 50, a⟩]).1.a25_35 = a ∧
    (accumulateZones [⟨25, .fin 50, a⟩]).1.a35_inf = a ∧
    (accumulateZones [⟨25, .fin 50, a⟩]).2 = a + a ∧
    a < (accumulateZones [⟨25, .fin 50, a⟩]).2 := by
  refine ⟨by simp [SLOPE_BANDS], ?_, ?_, ?_, ?_⟩ <;>
    norm_num [accumulateZones, addZone, overlapsClass, SlopeVal.ltB, SlopeVal.leB] <;>
    linarith

/-- Witness for C9 at the concrete zone area 100 m². -/
theorem claim_c9_zone_double_count_witness :
    (0:ℚ) < 100 ∧
    ((25, SlopeVal.fin 50) ∈ SLOPE_BANDS ∧
     (accumulateZones [⟨25, .fin 50, (100:ℚ)⟩]).1.a25_35 = 100 ∧
     (accumulateZones [⟨25, .fin 50, (100:ℚ)⟩]).1.a35_inf = 100 ∧
     (accumulateZones [⟨25, .fin 50, (100:ℚ)⟩]).2 = 100 + 100 ∧
     (100:ℚ) < (accumulateZones [⟨25, .fin 50, (100:ℚ)⟩]).2) :=
  ⟨by norm_num, claim_c9_zone_double_count 100 (by norm_num)⟩

theorem inSlopeClass_eq_true_fin {lo hi s : ℚ} :
    inSlopeClass lo (.fin hi) s = true ↔ lo ≤ s ∧ s < hi := by
  simp [inSlopeClass, SlopeVal.ltB]

theorem inSlopeClass_eq_true_inf {lo s : ℚ} :
    inSlopeClass lo .inf s = true ↔ lo ≤ s := by
  simp [inSlopeClass, SlopeVal.ltB]

theorem min_classification_eq : min_classification = 10 := by
  norm_num [min_classification, SLOPE_CLASSES]

/-- The five slope buckets (below minimum plus the four classes) partition any
pixel list: the bucket-filtered sums of any quantity add up to the whole sum. -/
theorem filterSum_partition (l : List (ℚ × ℚ)) (g : ℚ × ℚ → ℚ) :
    ((l.filter (fun p => decide (p.1 < min_classification))).map g).sum
      + ((l.filter (fun p => inSlopeClass 10 (.fin 20) p.1)).map g).sum
      + ((l.filter (fun p => inSlopeClass 20 (.fin 25) p.1)).map g).sum
      + ((l.filter (fun p => inSlopeClass 25 (.fin 35) p.1)).map g).sum
      + ((l.filter (fun p => inSlopeClass 35 .inf p.1)).map g).sum
    = (l.map g).sum := by
  simp only [min_classification_eq]
  induction l with
  | nil => simp
  | cons p l ih =>
    rcases lt_or_le p.1 10 with h1 | h1
    · simp only [List.filter_cons, inSlopeClass_eq_true_fin,
        inSlopeClass_eq_true_inf, decide_eq_true_eq]
      rw [if_pos h1, if_neg (by rintro ⟨h', _⟩; linarith), if_neg (by rintro ⟨h', _⟩; linarith),
        if_neg (by rintro ⟨h', _⟩; linarith), if_neg (by intro h'; linarith)]
      simp only [List.map_cons, List.sum_cons]
      linarith
    · rcases lt_or_le p.1 20 with h2 | h2
      · simp only [List.filter_cons, inSlopeClass_eq_true_fin,
          inSlopeClass_eq_true_inf, decide_eq_true_eq]
        rw [if_neg (by intro h'; linarith), if_pos ⟨h1, h2⟩,
          if_neg (by rintro ⟨h', _⟩; linarith), if_neg (by rintro ⟨h', _⟩; linarith),
          if_neg (by intro h'; linarith)]
        simp only [List.map_cons, List.sum_cons]
        linarith
      · rcases lt_or_le p.1 25 with h3 | h3
        · simp only [List.filter_cons, inSlopeClass_eq_true_fin,
            inSlopeClass_eq_true_inf, decide_eq_true_eq]
          rw [if_neg (by intro h'; linarith), if_neg (by rintro ⟨_, h'⟩; linarith),
            if_pos ⟨h2, h3⟩, if_neg (by rintro ⟨h', _⟩; linarith),
            if_neg (by intro h'; linarith)]
          simp only [List.map_cons, List.sum_cons]
          linarith
        · rcases lt_or_le p.1 35 with h4 | h4
          · simp only [List.filter_cons, inSlopeClass_eq_true_fin,
              inSlopeClass_eq_true_inf, decide_eq_true_eq]
            rw [if_neg (by intro h'; linarith), if_neg (by rintro ⟨_, h'⟩; linarith),
              if_neg (by rintro ⟨_, h'⟩; linarith), if_pos ⟨h3, h4⟩,
              if_neg (by intro h'; linarith)]
            simp only [List.map_cons, List.sum_cons]
            linarith
          · simp only [List.filter_cons, inSlopeClass_eq_true_fin,
              inSlopeClass_eq_true_inf, decide_eq_true_eq]
            rw [if_neg (by intro h'; linarith), if_neg (by rintro ⟨_, h'⟩; linarith),
              if_neg (by rintro ⟨_, h'⟩; linarith), if_neg (by rintro ⟨_, h'⟩; linarith),
              if_pos h4]
            simp only [List.map_cons, List.sum_cons]
            linarith

/-- Every entry of `validPixels` carries an intersection area above the noise
floor. -/
theorem mem_validPixels_area (grid : List (List ℚ)) (nodata : Option ℚ)
    (mask : List (List Bool)) (interArea : ℕ → ℕ → ℚ) {p : ℚ × ℚ}
    (hp : p ∈ validPixels grid nodata mask interArea) : 1/100 < p.2 := by
  unfold validPixels at hp
  rw [List.mem_flatMap] at hp
  obtain ⟨r, _, hp⟩ := hp
  rw [List.mem_filterMap] at hp
  obtain ⟨c, _, hc⟩ := hp
  by_cases h2 : 1/100 < interArea r c
  · rw [if_pos h2] at hc
    split_ifs at hc <;> (try cases hc) <;> (try exact h2)
  · rw [if_neg h2, ite_self] at hc
    cases hc

theorem sumSnd_pos {l : List (ℚ × ℚ)} (hne : l ≠ []) (h : ∀ p ∈ l, 1/100 < p.2) :
    0 < (l.map Prod.snd).sum := by
  match l, hne with
  | p :: rest, _ =>
    simp only [List.map_cons, List.sum_cons]
    have h1 : (0:ℚ) < p.2 := lt_trans (by norm_num) (h p (List.mem_cons_self p rest))
    have h2 : 0 ≤ (rest.map Prod.snd).sum := by
      apply List.sum_nonneg
      intro x hx
      obtain ⟨q, hq, rfl⟩ := List.mem_map.mp hx
      have := h q (List.mem_cons_of_mem p hq)
      linarith
    linarith

theorem sum_map_div {l : List (ℚ × ℚ)} (t : ℚ) :
    (l.map (fun p => p.2 / t)).sum = (l.map Prod.snd).sum / t := by
  induction l with
  | nil => simp
  | cons p l ih =>
    simp only [List.map_cons, List.sum_cons, ih]
    ring

/-- C3: for every parcel with at least one qualifying pixel, the classifier's
weights (intersection area over total intersection area) sum to 1, and the
emitted class percentages together with the below-minimum bucket are
non-negative and sum to 100 up to the two-decimal rounding of the five buckets
(within 1/40), independent of `plot_area`, i.e. of how much of the parcel the
raster covers. -/
theorem claim_c3_weight_normalization (slope_data : List (List ℚ)) (nodata : Option ℚ)
    (mask : List (List Bool)) (interArea : ℕ → ℕ → ℚ) (plot_area : ℚ)
    (hemp : gridIsEmpty slope_data = false)
    (hsh : maskShape mask = gridShape slope_data)
    (hne : validPixels slope_data nodata mask interArea ≠ []) :
    classifierBalanced slope_data nodata mask interArea plot_area := by
  have hmem : ∀ p ∈ validPixels slope_data nodata mask interArea, 1/100 < p.2 :=
    fun p hp => mem_validPixels_area _ _ _ _ hp
  have htot : 0 < ((validPixels slope_data nodata mask interArea).map Prod.snd).sum :=
    sumSnd_pos hne hmem
  have hie : (validPixels slope_data nodata mask interArea).isEmpty = false := by
    cases h : validPixels slope_data nodata mask interArea with
    | nil => exact absurd h hne
    | cons a l => rfl
  have hwnn : ∀ f : ℚ × ℚ → Bool,
      0 ≤ (((validPixels slope_data nodata mask interArea).filter f).map
        (fun p => p.2 / ((validPixels slope_data nodata mask interArea).map Prod.snd).sum)).sum := by
    intro f
    apply List.sum_nonneg
    intro x hx
    obtain ⟨p, hp, rfl⟩ := List.mem_map.mp hx
    have h1 := hmem p (List.mem_of_mem_filter hp)
    positivity
  have hsum1 : ((validPixels slope_data nodata mask interArea).map
      (fun p => p.2 / ((validPixels slope_data nodata mask interArea).map Prod.snd).sum)).sum
      = 1 := by
    rw [sum_map_div, div_self (ne_of_gt htot)]
  have hpart := filterSum_partition (validPixels slope_data nodata mask interArea)
    (fun p => p.2 / ((validPixels slope_data nodata mask interArea).map Prod.snd).sum)
  rw [hsum1] at hpart
  simp only [classifierBalanced, calculate_plot_statistics_windowed, hemp, hsh, hie,
    Bool.false_eq_true, not_true, if_false, ite_false, if_neg, Bool.false_eq_true]
  simp only [classWeightPct, belowMinPct]
  set px := validPixels slope_data nodata mask interArea with hpxdef
  set T := (px.map Prod.snd).sum with hTdef
  set S0 := ((px.filter (fun p => decide (p.1 < min_classification))).map
    (fun p => p.2 / T)).sum with hS0def
  set S1 := ((px.filter (fun p => inSlopeClass 10 (.fin 20) p.1)).map
    (fun p => p.2 / T)).sum with hS1def
  set S2 := ((px.filter (fun p => inSlopeClass 20 (.fin 25) p.1)).map
    (fun p => p.2 / T)).sum with hS2def
  set S3 := ((px.filter (fun p => inSlopeClass 25 (.fin 35) p.1)).map
    (fun p => p.2 / T)).sum with hS3def
  set S4 := ((px.filter (fun p => inSlopeClass 35 .inf p.1)).map
    (fun p => p.2 / T)).sum with hS4def
  refine ⟨trivial, hsum1, ?_, ?_, ?_, ?_, round2 (S0 * 100), rfl, ?_, ?_⟩
  · apply round2_nonneg
    rw [hS1def]
    exact mul_nonneg (hwnn _) (by norm_num)
  · apply round2_nonneg
    rw [hS2def]
    exact mul_nonneg (hwnn _) (by norm_num)
  · apply round2_nonneg
    rw [hS3def]
    exact mul_nonneg (hwnn _) (by norm_num)
  · apply round2_nonneg
    rw [hS4def]
    exact mul_nonneg (hwnn _) (by norm_num)
  · apply round2_nonneg
    rw [hS0def]
    exact mul_nonneg (hwnn _) (by norm_num)
  have e0 := abs_round2_sub_le (S0 * 100)
  have e1 := abs_round2_sub_le (S1 * 100)
  have e2 := abs_round2_sub_le (S2 * 100)
  have e3 := abs_round2_sub_le (S3 * 100)
  have e4 := abs_round2_sub_le (S4 * 100)
  rw [abs_le] at e0 e1 e2 e3 e4 ⊢
  constructor <;> [linarith [e0.1, e1.1, e2.1, e3.1, e4.1];
    linarith [e0.2, e1.2, e2.2, e3.2, e4.2]]

unseal Rat.mul Rat.inv Rat.add Rat.sub Rat.ofScientific in
/-- Witness for C3 at a concrete input: a two-pixel window with slope values
15 and 40, both masked in and each with 1 m² of intersection area, over a
parcel of area 5 m² (so the raster covers only part of the parcel). -/
theorem claim_c3_weight_normalization_witness :
    validPixels [[15, 40]] (some (-1)) [[true, true]] (fun _ _ => 1) ≠ [] ∧
    classifierBalanced [[15, 40]] (some (-1)) [[true, true]] (fun _ _ => 1) 5 :=
  ⟨by decide,
   claim_c3_weight_normalization [[15, 40]] (some (-1)) [[true, true]] (fun _ _ => 1) 5
     (by decide) (by decide) (by decide)⟩

theorem claimStep_foldl_union (parcels : List Box) (cells : List (Box × Box)) :
    ∀ acc : List (List ℕ × Box) × List ℕ, groupUnion acc.1 = acc.2 →
    groupUnion ((cells.foldl (claimStep parcels) acc).1)
      = (cells.foldl (claimStep parcels) acc).2 := by
  induction cells with
  | nil => exact fun acc hinv => hinv
  | cons c cs ih =>
    intro acc hinv
    simp only [List.foldl_cons]
    apply ih
    unfold claimStep
    split_ifs with hnew
    · exact hinv
    · simp only [groupUnion, List.map_append, List.flatten_append] at hinv ⊢
      simp [hinv]

theorem claimStep_foldl_nodup (parcels : List Box) (cells : List (Box × Box)) :
    ∀ acc : List (List ℕ × Box) × List ℕ, acc.2.Nodup →
    (cells.foldl (claimStep parcels) acc).2.Nodup := by
  induction cells with
  | nil => exact fun acc hnd => hnd
  | cons c cs ih =>
    intro acc hnd
    simp only [List.foldl_cons]
    apply ih
    unfold claimStep
    split_ifs with hnew
    · exact hnd
    · refine List.Nodup.append hnd
        (by rw [newPlots]; exact List.Nodup.filter _ (List.nodup_range _)) ?_
      intro a ha hfa
      rw [newPlots] at hfa
      have h2 := (List.mem_filter.mp hfa).2
      rw [Bool.and_eq_true] at h2
      have := h2.2
      simp only [Bool.not_eq_eq_eq_not, Bool.not_true, decide_eq_false_iff_not] at this
      exact this ha

theorem claimStep_foldl_mono (parcels : List Box) (cells : List (Box × Box)) :
    ∀ acc : List (List ℕ × Box) × List ℕ, acc.2 ⊆ (cells.foldl (claimStep parcels) acc).2 := by
  induction cells with
  | nil => exact fun acc => List.Subset.refl _
  | cons c cs ih =>
    intro acc
    simp only [List.foldl_cons]
    refine List.Subset.trans ?_ (ih (claimStep parcels acc c))
    unfold claimStep
    split_ifs with hnew
    · exact List.Subset.refl _
    · exact List.subset_append_left _ _

theorem claimStep_foldl_mem (parcels : List Box) (cells : List (Box × Box)) (k : ℕ)
    (hk : k < parcels.length) :
    ∀ acc : List (List ℕ × Box) × List ℕ,
    (∃ c ∈ cells, boxIntersects (parcels.getD k ⟨0, 0, 0, 0⟩) c.1 = true) →
    k ∈ (cells.foldl (claimStep parcels) acc).2 := by
  induction cells with
  | nil =>
    intro acc hcell
    obtain ⟨c, hc, _⟩ := hcell
    cases hc
  | cons c cs ih =>
    intro acc hcell
    simp only [List.foldl_cons]
    obtain ⟨c', hc', hint⟩ := hcell
    rcases List.mem_cons.mp hc' with rfl | hcs
    · refine claimStep_foldl_mono parcels cs (claimStep parcels acc c') ?_
      by_cases hmem : k ∈ acc.2
      · unfold claimStep
        split_ifs with hnew
        · exact hmem
        · exact List.mem_append_left _ hmem
      · have hknew : k ∈ newPlots parcels acc.2 c'.1 := by
          rw [newPlots, List.mem_filter]
          refine ⟨List.mem_range.mpr hk, ?_⟩
          rw [Bool.and_eq_true, hint]
          simp [hmem]
        unfold claimStep
        split_ifs with hnew
        · rw [List.isEmpty_iff] at hnew
          rw [hnew] at hknew
          cases hknew
        · exact List.mem_append_right _ hknew
    · exact ih (claimStep parcels acc c) ⟨c', hcs, hint⟩

theorem claimStepS_foldl_union (parcels : List Box) (cells : List Box) :
    ∀ acc : List (List ℕ) × List ℕ, acc.1.flatten = acc.2 →
    ((cells.foldl (claimStepS parcels) acc).1).flatten
      = (cells.foldl (claimStepS parcels) acc).2 := by
  induction cells with
  | nil => exact fun acc hinv => hinv
  | cons c cs ih =>
    intro acc hinv
    simp only [List.foldl_cons]
    apply ih
    unfold claimStepS
    split_ifs with hnew
    · exact hinv
    · simp only [List.flatten_append] at hinv ⊢
      simp [hinv]

theorem claimStepS_foldl_nodup (parcels : List Box) (cells : List Box) :
    ∀ acc : List (List ℕ) × List ℕ, acc.2.Nodup →
    (cells.foldl (claimStepS parcels) acc).2.Nodup := by
  induction cells with
  | nil => exact fun acc hnd => hnd
  | cons c cs ih =>
    intro acc hnd
    simp only [List.foldl_cons]
    apply ih
    unfold claimStepS
    split_ifs with hnew
    · exact hnd
    · refine List.Nodup.append hnd
        (by rw [newPlots]; exact List.Nodup.filter _ (List.nodup_range _)) ?_
      intro a ha hfa
      rw [newPlots] at hfa
      have h2 := (List.mem_filter.mp hfa).2
      rw [Bool.and_eq_true] at h2
      have := h2.2
      simp only [Bool.not_eq_eq_eq_not, Bool.not_true, decide_eq_false_iff_not] at this
      exact this ha

/-- C1 (amended): within both partitioners no parcel index appears twice across
the groups; for `create_spatial_index` every parcel that intersects at least
one buffered grid cell is claimed by exactly one group, but a parcel
intersecting no buffered cell is silently omitted (see the counterexample); the
vector-variant `create_spatial_groups` additionally appends the missed parcels
as a fallback group, so its groups always cover the input exactly once. -/
theorem claim_c1_partition_amended :
    (∀ (parcels : List Box) (raster : Box) (grid_size : ℕ) (buffer_size : ℚ),
      (groupUnion (buildGroups parcels raster grid_size buffer_size)).Nodup) ∧
    (∀ (parcels : List Box) (raster : Box) (grid_size : ℕ) (buffer_size : ℚ) (k : ℕ),
      k < parcels.length →
      (∃ c ∈ gridCells parcels raster grid_size buffer_size,
        boxIntersects (parcels.getD k ⟨0, 0, 0, 0⟩) c.1 = true) →
      k ∈ groupUnion (buildGroups parcels raster grid_size buffer_size)) ∧
    (∀ (parcels : List Box) (cols rows : ℕ),
      ((create_spatial_groups parcels cols rows).flatten).Nodup ∧
      ∀ k, k < parcels.length → k ∈ (create_spatial_groups parcels cols rows).flatten) := by
  refine ⟨?_, ?_, ?_⟩
  · intro parcels raster grid_size buffer_size
    unfold buildGroups
    rw [claimStep_foldl_union parcels _ ([], []) rfl]
    exact claimStep_foldl_nodup parcels _ ([], []) List.nodup_nil
  · intro parcels raster grid_size buffer_size k hk hcell
    unfold buildGroups
    rw [claimStep_foldl_union parcels _ ([], []) rfl]
    exact claimStep_foldl_mem parcels _ k hk ([], []) hcell
  · intro parcels cols rows
    have hun : (shapeFold parcels cols rows).1.flatten = (shapeFold parcels cols rows).2 :=
      claimStepS_foldl_union parcels (shapeCells parcels cols rows) ([], []) rfl
    have hnd : (shapeFold parcels cols rows).2.Nodup :=
      claimStepS_foldl_nodup parcels (shapeCells parcels cols rows) ([], []) List.nodup_nil
    constructor
    · unfold create_spatial_groups
      split_ifs with hmiss
      · rw [hun]
        exact hnd
      · rw [List.flatten_append]
        simp only [List.flatten_cons, List.flatten_nil, List.append_nil]
        rw [hun]
        refine List.Nodup.append hnd
          (by rw [missedIndices]; exact List.Nodup.filter _ (List.nodup_range _)) ?_
        intro a ha hfa
        rw [missedIndices, List.mem_filter] at hfa
        have h2 := hfa.2
        simp only [Bool.not_eq_eq_eq_not, Bool.not_true, decide_eq_false_iff_not] at h2
        exact h2 ha
    · intro k hk
      unfold create_spatial_groups
      by_cases hmem : k ∈ (shapeFold parcels cols rows).2
      · split_ifs with hmiss
        · rw [hun]
          exact hmem
        · rw [List.flatten_append]
          refine List.mem_append_left _ ?_
          rw [hun]
          exact hmem
      · have hkm : k ∈ missedIndices parcels cols rows := by
          rw [missedIndices, List.mem_filter]
          exact ⟨List.mem_range.mpr hk, by simp [hmem]⟩
        split_ifs with hmiss
        · rw [List.isEmpty_iff] at hmiss
          rw [hmiss] at hkm
          cases hkm
        · rw [List.flatten_append]
          refine List.mem_append_right _ ?_
          simpa using hkm

unseal Rat.mul Rat.inv Rat.add Rat.sub Rat.ofScientific in
/-- Witness for C1 at a concrete input: one parcel inside the raster extent is
claimed by the first grid cell of `create_spatial_index` and covered by
`create_spatial_groups`. -/
theorem claim_c1_partition_amended_witness :
    (∃ c ∈ gridCells [(⟨1, 1, 3, 3⟩ : Box)] ⟨0, 0, 10, 10⟩ 4 2,
      boxIntersects (([(⟨1, 1, 3, 3⟩ : Box)]).getD 0 ⟨0, 0, 0, 0⟩) c.1 = true) ∧
    0 ∈ groupUnion (buildGroups [⟨1, 1, 3, 3⟩] ⟨0, 0, 10, 10⟩ 4 2) ∧
    0 ∈ (create_spatial_groups [⟨1, 1, 3, 3⟩] 2 2).flatten :=
  ⟨by decide,
   claim_c1_partition_amended.2.1 [⟨1, 1, 3, 3⟩] ⟨0, 0, 10, 10⟩ 4 2 0 (by decide) (by decide),
   (claim_c1_partition_amended.2.2 [⟨1, 1, 3, 3⟩] 2 2).2 0 (by decide)⟩

unseal Rat.mul Rat.inv Rat.add Rat.sub Rat.ofScientific in
/-- Counterexample to C1 as stated: with a raster of bounds (0,0)-(10,10), a
pixel buffer of 2 and the default 4×4 grid, the parcel (20,1)-(22,3) lying
wholly east of the raster extent intersects no buffered grid cell, so
`create_spatial_index` succeeds (the other parcel provides overlap) yet assigns
parcel 1 to no group: the union of the groups is a strict subset of the input
parcel set. -/
theorem claim_c1_partition_counterexample :
    ([(⟨1, 1, 3, 3⟩ : Box), ⟨20, 1, 22, 3⟩].length = 2) ∧
    ((create_spatial_index [⟨1, 1, 3, 3⟩, ⟨20, 1, 22, 3⟩] ⟨0, 0, 10, 10⟩ 4 2).toOption.map
      (fun gs => (groupUnion gs).contains 0) = some true) ∧
    ((create_spatial_index [⟨1, 1, 3, 3⟩, ⟨20, 1, 22, 3⟩] ⟨0, 0, 10, 10⟩ 4 2).toOption.map
      (fun gs => (groupUnion gs).contains 1) = some false) := by
  decide

unseal Rat.mul Rat.inv Rat.add Rat.sub Rat.ofScientific in
/-- C6: a 10×10 m square parcel lying entirely inside a single raster cell of
slope value 15 yields `has_slope_data = true`, `pct_slope_10_20 = 100.0` and
zero for every other slope class and for the below-minimum bucket.  The window
is the single cell, its mask marks it, and the exact parcel/cell intersection
area is the full 100 m² parcel. -/
theorem claim_c6_single_cell :
    calculate_plot_statistics_windowed [[15]] (some (-32768)) [[true]]
      (fun _ _ => 100) 100 =
      ⟨100, true, 100, 0, 0, 0, some 0⟩ := by
  decide

/-- C5: for every current rate `r`, previous smoothed rate `p` and smoothing
factor `alpha`, `calculate_ewma` returns `alpha * r + (1 - alpha) * p`; in
particular with previous rate 10/s, instantaneous rate 20/s and `alpha = 0.1`
it returns exactly `11.0`. -/
theorem claim_c5_ewma_update :
    (∀ r p alpha : ℚ, calculate_ewma r (some p) alpha = alpha * r + (1 - alpha) * p) ∧
    calculate_ewma 20 (some 10) (1/10) = 11 := by
  refine ⟨fun r p alpha => rfl, ?_⟩
  norm_num [calculate_ewma]

/-- C10: calling `calculate_ewma` with no previous smoothed value returns the
current rate unchanged, for every rate and smoothing factor: the first
observation seeds the moving average. -/
theorem claim_c10_ewma_seed :
    ∀ r alpha : ℚ, calculate_ewma r none alpha = r :=
  fun _ _ => rfl

theorem addZone_snd_sub (acc : ClassAreas × ℚ) (z : ZoneRec) :
    (addZone acc z).2 - (addZone acc z).1.total = acc.2 - acc.1.total := by
  simp only [addZone]
  split_ifs <;> simp [ClassAreas.total] <;> ring

theorem foldl_addZone_snd (zones : List ZoneRec) :
    ∀ acc : ClassAreas × ℚ,
    (zones.foldl addZone acc).2 - (zones.foldl addZone acc).1.total = acc.2 - acc.1.total := by
  induction zones with
  | nil => exact fun acc => rfl
  | cons z zs ih =>
    intro acc
    simp only [List.foldl_cons]
    rw [ih (addZone acc z), addZone_snd_sub]

/-- `total_slope_area` always equals the sum of the five accumulated class
areas: each zone adds the same amount to both. -/
theorem accumulateZones_snd_eq (zones : List ZoneRec) :
    (accumulateZones zones).2 = (accumulateZones zones).1.total := by
  have h := foldl_addZone_snd zones (⟨0, 0, 0, 0, 0⟩, 0)
  unfold accumulateZones
  simp [ClassAreas.total] at h ⊢
  linarith [h]

theorem foldl_addZone_nonneg (zones : List ZoneRec) :
    ∀ acc : ClassAreas × ℚ, (∀ z ∈ zones, 0 ≤ z.inter_area) →
    acc.1.Nonneg → 0 ≤ acc.2 →
    (zones.foldl addZone acc).1.Nonneg ∧ 0 ≤ (zones.foldl addZone acc).2 := by
  induction zones with
  | nil => exact fun acc _ h1 h2 => ⟨h1, h2⟩
  | cons z zs ih =>
    intro acc hz h1 h2
    simp only [List.foldl_cons]
    have hza : 0 ≤ z.inter_area := hz z (List.mem_cons_self z zs)
    obtain ⟨n1, n2, n3, n4, n5⟩ := h1
    have hstep : (addZone acc z).1.Nonneg ∧ 0 ≤ (addZone acc z).2 := by
      simp only [addZone]
      split_ifs <;> refine ⟨⟨?_, ?_, ?_, ?_, ?_⟩, ?_⟩ <;> (try simp) <;> linarith
    exact ih (addZone acc z) (fun w hw => hz w (List.mem_cons_of_mem z hw)) hstep.1 hstep.2

/-- C7 (amended): for every processed parcel with `has_slope_data = true` (and
geometric zone intersection areas, which are non-negative), each slope-class
area is non-negative and the sum of the class areas differs from
`total_area_m2` by at most 5% of `total_area_m2` plus 0.25 m² — the slack of
rounding five class areas to one decimal.  The bare 5% bound of the original
claim fails for small parcels (see the counterexample). -/
theorem claim_c7_area_sum_amended (total_area_m2 : ℚ) (zones : List ZoneRec)
    (hz : ∀ z ∈ zones, 0 ≤ z.inter_area)
    (hs : (process_plot_group_step total_area_m2 zones).has_slope_data = true) :
    (0 ≤ (process_plot_group_step total_area_m2 zones).slope_0_10_area_m2 ∧
     0 ≤ (process_plot_group_step total_area_m2 zones).slope_10_20_area_m2 ∧
     0 ≤ (process_plot_group_step total_area_m2 zones).slope_20_25_area_m2 ∧
     0 ≤ (process_plot_group_step total_area_m2 zones).slope_25_35_area_m2 ∧
     0 ≤ (process_plot_group_step total_area_m2 zones).slope_35_inf_area_m2) ∧
    |shapeAreaSum (process_plot_group_step total_area_m2 zones) - total_area_m2|
      ≤ total_area_m2 * (5/100) + 1/4 := by
  unfold process_plot_group_step at hs ⊢
  split_ifs at hs ⊢ with h1 h2 h3
  have hnn : (accumulateZones zones).1.Nonneg ∧ 0 ≤ (accumulateZones zones).2 :=
    foldl_addZone_nonneg zones (⟨0, 0, 0, 0, 0⟩, 0) hz
      ⟨le_refl 0, le_refl 0, le_refl 0, le_refl 0, le_refl 0⟩ (le_refl 0)
  have hT : 0 < (accumulateZones zones).2 := lt_of_le_of_ne hnn.2 (Ne.symm h2)
  have hTtot := accumulateZones_snd_eq zones
  obtain ⟨n0, n1, n2, n3, n4⟩ := hnn.1
  set T := (accumulateZones zones).2 with hTdef
  set ca := (accumulateZones zones).1 with hcadef
  simp only [shapeResult, shapeAreaSum, roundAreas]
  unfold normalizeAreas
  split_ifs with hnorm
  · simp only [round1_idem]
    have hsum : ca.a0_10 * (total_area_m2 / T) + ca.a10_20 * (total_area_m2 / T)
        + ca.a20_25 * (total_area_m2 / T) + ca.a25_35 * (total_area_m2 / T)
        + ca.a35_inf * (total_area_m2 / T) = total_area_m2 := by
      have h' : ca.a0_10 + ca.a10_20 + ca.a20_25 + ca.a25_35 + ca.a35_inf = T := by
        rw [hTtot]
        simp [ClassAreas.total]
      have hTne : T ≠ 0 := ne_of_gt hT
      have hfactor : ca.a0_10 * (total_area_m2 / T) + ca.a10_20 * (total_area_m2 / T)
          + ca.a20_25 * (total_area_m2 / T) + ca.a25_35 * (total_area_m2 / T)
          + ca.a35_inf * (total_area_m2 / T)
          = (ca.a0_10 + ca.a10_20 + ca.a20_25 + ca.a25_35 + ca.a35_inf)
            * (total_area_m2 / T) := by
        ring
      rw [hfactor, h']
      field_simp
    refine ⟨⟨?_, ?_, ?_, ?_, ?_⟩, ?_⟩
    · exact round1_nonneg _ (mul_nonneg n0 (div_nonneg h3.le hT.le))
    · exact round1_nonneg _ (mul_nonneg n1 (div_nonneg h3.le hT.le))
    · exact round1_nonneg _ (mul_nonneg n2 (div_nonneg h3.le hT.le))
    · exact round1_nonneg _ (mul_nonneg n3 (div_nonneg h3.le hT.le))
    · exact round1_nonneg _ (mul_nonneg n4 (div_nonneg h3.le hT.le))
    · have e0 := abs_round1_sub_le (ca.a0_10 * (total_area_m2 / T))
      have e1 := abs_round1_sub_le (ca.a10_20 * (total_area_m2 / T))
      have e2 := abs_round1_sub_le (ca.a20_25 * (total_area_m2 / T))
      have e3 := abs_round1_sub_le (ca.a25_35 * (total_area_m2 / T))
      have e4 := abs_round1_sub_le (ca.a35_inf * (total_area_m2 / T))
      rw [abs_le] at e0 e1 e2 e3 e4 ⊢
      have hm : 0 ≤ total_area_m2 * (5/100) := by positivity
      constructor
      · linarith [e0.1, e1.1, e2.1, e3.1, e4.1]
      · linarith [e0.2, e1.2, e2.2, e3.2, e4.2]
  · have hd : ¬ 5 < |T - total_area_m2| / total_area_m2 * 100 := fun hlt => hnorm ⟨hlt, hT⟩
    push_neg at hd
    have habs : |T - total_area_m2| ≤ total_area_m2 * (5/100) := by
      rw [div_mul_eq_mul_div, div_le_iff₀ h3] at hd
      linarith [hd]
    have hsum : ca.a0_10 + ca.a10_20 + ca.a20_25 + ca.a25_35 + ca.a35_inf = T := by
      rw [hTtot]
      simp [ClassAreas.total]
    refine ⟨⟨?_, ?_, ?_, ?_, ?_⟩, ?_⟩
    · exact round1_nonneg _ n0
    · exact round1_nonneg _ n1
    · exact round1_nonneg _ n2
    · exact round1_nonneg _ n3
    · exact round1_nonneg _ n4
    · have e0 := abs_round1_sub_le ca.a0_10
      have e1 := abs_round1_sub_le ca.a10_20
      have e2 := abs_round1_sub_le ca.a20_25
      have e3 := abs_round1_sub_le ca.a25_35
      have e4 := abs_round1_sub_le ca.a35_inf
      rw [abs_le] at e0 e1 e2 e3 e4 habs ⊢
      constructor
      · linarith [e0.1, e1.1, e2.1, e3.1, e4.1, habs.1]
      · linarith [e0.2, e1.2, e2.2, e3.2, e4.2, habs.2]

unseal Rat.mul Rat.inv Rat.add Rat.sub Rat.ofScientific in
/-- Witness for C7 at a concrete input: one zone of band 10-20 with
intersection area 96 m² against a 100 m² parcel (a 4% discrepancy, no
normalization). -/
theorem claim_c7_area_sum_amended_witness :
    (process_plot_group_step 100 [⟨10, .fin 15, 96⟩]).has_slope_data = true ∧
    ((0 ≤ (process_plot_group_step 100 [⟨10, .fin 15, 96⟩]).slope_0_10_area_m2 ∧
      0 ≤ (process_plot_group_step 100 [⟨10, .fin 15, 96⟩]).slope_10_20_area_m2 ∧
      0 ≤ (process_plot_group_step 100 [⟨10, .fin 15, 96⟩]).slope_20_25_area_m2 ∧
      0 ≤ (process_plot_group_step 100 [⟨10, .fin 15, 96⟩]).slope_25_35_area_m2 ∧
      0 ≤ (process_plot_group_step 100 [⟨10, .fin 15, 96⟩]).slope_35_inf_area_m2) ∧
     |shapeAreaSum (process_plot_group_step 100 [⟨10, .fin 15, 96⟩]) - 100|
       ≤ 100 * (5/100) + 1/4) :=
  ⟨by decide,
   claim_c7_area_sum_amended 100 [⟨10, .fin 15, 96⟩]
     (fun z hz => by rw [List.mem_singleton] at hz; subst hz; norm_num) (by decide)⟩

unseal Rat.mul Rat.inv Rat.add Rat.sub Rat.ofScientific in
/-- Counterexample to C7 as stated: a 1 m² parcel covered by five zones, one
per class, with intersection areas 0.07, 0.07, 0.07, 0.07 and 0.22 m².  The
accumulated slope area 0.5 m² triggers normalization (50% discrepancy), the
rescaled areas 0.14, 0.14, 0.14, 0.14, 0.44 each round down to one decimal,
and the emitted class areas sum to 0.8 m²: off the 1 m² total by 20%, far
beyond the claimed 5% tolerance, while `has_slope_data` is true. -/
theorem claim_c7_area_sum_counterexample :
    (process_plot_group_step 1
      [⟨0, .fin 5, 7/100⟩, ⟨10, .fin 15, 7/100⟩, ⟨20, .fin 22, 7/100⟩,
       ⟨25, .fin 30, 7/100⟩, ⟨40, .fin 45, 11/50⟩]).has_slope_data = true ∧
    shapeAreaSum (process_plot_group_step 1
      [⟨0, .fin 5, 7/100⟩, ⟨10, .fin 15, 7/100⟩, ⟨20, .fin 22, 7/100⟩,
       ⟨25, .fin 30, 7/100⟩, ⟨40, .fin 45, 11/50⟩]) = 4/5 ∧
    ¬ (|shapeAreaSum (process_plot_group_step 1
      [⟨0, .fin 5, 7/100⟩, ⟨10, .fin 15, 7/100⟩, ⟨20, .fin 22, 7/100⟩,
       ⟨25, .fin 30, 7/100⟩, ⟨40, .fin 45, 11/50⟩]) - 1| ≤ 1 * (5/100)) := by
  refine ⟨by decide, by decide, ?_⟩
  intro h
  rw [show shapeAreaSum (process_plot_group_step 1
      [⟨0, .fin 5, 7/100⟩, ⟨10, .fin 15, 7/100⟩, ⟨20, .fin 22, 7/100⟩,
       ⟨25, .fin 30, 7/100⟩, ⟨40, .fin 45, 11/50⟩]) = 4/5 from by decide] at h
  rw [abs_le] at h
  linarith [h.1]

/-- C4 (amended): the window returned by `get_valid_window` always has
non-negative offsets and width and height at least 1; its end offsets stay
within the raster except through the degenerate size-one fallback (which can
start beyond the raster for bounds wholly past the right/bottom edge — see the
counterexample); and on every side not clamped at a raster edge it keeps
strictly more than one pixel of padding beyond the requested bounds.
Degenerate bounds never raise — the function is total — but they produce a
buffered window, not a 1×1 one. -/
theorem claim_c4_window_amended (b : BoundsQ) (tr : AffineQ) (shape : ℕ × ℕ)
    (ha : 0 < tr.a) (he : tr.e < 0) : windowSafe b tr shape := by
  simp only [windowSafe, get_valid_window]
  unfold col_start row_start col_stop row_stop
  set u := (from_bounds (buffered_bounds b tr) tr).col_off with hudef
  set wd := (from_bounds (buffered_bounds b tr) tr).width with hwddef
  set v := (from_bounds (buffered_bounds b tr) tr).row_off with hvdef
  set hh := (from_bounds (buffered_bounds b tr) tr).height with hhdef
  have huval : u = (b.left - max |tr.a| |tr.e| * 10 - tr.c) / tr.a := rfl
  have hwdval : wd = (b.right + max |tr.a| |tr.e| * 10 - (b.left - max |tr.a| |tr.e| * 10)) / tr.a := rfl
  have hvval : v = (b.top + max |tr.a| |tr.e| * 10 - tr.f) / tr.e := rfl
  have hhval : hh = (b.bottom - max |tr.a| |tr.e| * 10 - (b.top + max |tr.a| |tr.e| * 10)) / tr.e := rfl
  have hane : tr.a ≠ 0 := ne_of_gt ha
  have hene : tr.e ≠ 0 := ne_of_lt he
  have hbufa : (10 : ℚ) * tr.a ≤ max |tr.a| |tr.e| * 10 := by
    have h := le_max_left |tr.a| |tr.e|
    have habs := abs_of_pos ha
    linarith
  have hbufe : -(10 : ℚ) * tr.e ≤ max |tr.a| |tr.e| * 10 := by
    have h := le_max_right |tr.a| |tr.e|
    have habs := abs_of_neg he
    linarith
  have hdiva : (10:ℚ) ≤ (max |tr.a| |tr.e| * 10) / tr.a := by
    rw [le_div_iff₀ ha]
    linarith
  have hdive : (max |tr.a| |tr.e| * 10) / tr.e ≤ -10 := by
    rw [div_le_iff_of_neg he]
    linarith
  have hu_le : u ≤ (b.left - tr.c) / tr.a - 10 := by
    rw [huval, show (b.left - max |tr.a| |tr.e| * 10 - tr.c) / tr.a
      = (b.left - tr.c) / tr.a - (max |tr.a| |tr.e| * 10) / tr.a by ring]
    linarith
  have huw : (b.right - tr.c) / tr.a + 10 ≤ u + wd := by
    rw [huval, hwdval, show (b.left - max |tr.a| |tr.e| * 10 - tr.c) / tr.a
        + (b.right + max |tr.a| |tr.e| * 10 - (b.left - max |tr.a| |tr.e| * 10)) / tr.a
      = (b.right - tr.c) / tr.a + (max |tr.a| |tr.e| * 10) / tr.a by ring]
    linarith
  have hv_le : v ≤ (b.top - tr.f) / tr.e - 10 := by
    rw [hvval, show (b.top + max |tr.a| |tr.e| * 10 - tr.f) / tr.e
      = (b.top - tr.f) / tr.e + (max |tr.a| |tr.e| * 10) / tr.e by ring]
    linarith
  have hvh : (b.bottom - tr.f) / tr.e + 10 ≤ v + hh := by
    rw [hvval, hhval, show (b.top + max |tr.a| |tr.e| * 10 - tr.f) / tr.e
        + (b.bottom - max |tr.a| |tr.e| * 10 - (b.top + max |tr.a| |tr.e| * 10)) / tr.e
      = (b.bottom - tr.f) / tr.e - (max |tr.a| |tr.e| * 10) / tr.e by ring]
    linarith
  refine ⟨le_max_left _ _, le_max_left _ _, le_max_left _ _, le_max_left _ _,
    ?_, ?_, ?_, ?_, ?_, ?_⟩
  · rcases le_or_lt (min (shape.2 : ℤ) (truncQ (u + wd + 2)) - max 0 (truncQ (u - 1))) 1
      with hc | hc
    · exact Or.inr (max_eq_left hc)
    · refine Or.inl ?_
      rw [max_eq_right hc.le]
      have h1 := min_le_left (shape.2 : ℤ) (truncQ (u + wd + 2))
      omega
  · rcases le_or_lt (min (shape.1 : ℤ) (truncQ (v + hh + 2)) - max 0 (truncQ (v - 1))) 1
      with hc | hc
    · exact Or.inr (max_eq_left hc)
    · refine Or.inl ?_
      rw [max_eq_right hc.le]
      have h1 := min_le_left (shape.1 : ℤ) (truncQ (v + hh + 2))
      omega
  · intro h0
    have ht0 : 0 < truncQ (u - 1) := by omega
    have hst : max 0 (truncQ (u - 1)) = truncQ (u - 1) := by omega
    have hle : (truncQ (u - 1) : ℚ) ≤ u - 1 := truncQ_le_of_pos _ ht0
    rw [hst]
    linarith
  · intro h0
    have ht0 : 0 < truncQ (v - 1) := by omega
    have hst : max 0 (truncQ (v - 1)) = truncQ (v - 1) := by omega
    have hle : (truncQ (v - 1) : ℚ) ≤ v - 1 := truncQ_le_of_pos _ ht0
    rw [hst]
    linarith
  · intro hlt
    have hspW : min (shape.2 : ℤ) (truncQ (u + wd + 2)) ≤ max 0 (truncQ (u - 1))
        + max 1 (min (shape.2 : ℤ) (truncQ (u + wd + 2)) - max 0 (truncQ (u - 1))) := by
      omega
    have hsp_lt : min (shape.2 : ℤ) (truncQ (u + wd + 2)) < (shape.2 : ℤ) :=
      lt_of_le_of_lt hspW hlt
    have hsp_eq : min (shape.2 : ℤ) (truncQ (u + wd + 2)) = truncQ (u + wd + 2) := by omega
    have hgt := truncQ_gt (u + wd + 2)
    have hint : truncQ (u + wd + 2) ≤ max 0 (truncQ (u - 1))
        + max 1 (min (shape.2 : ℤ) (truncQ (u + wd + 2)) - max 0 (truncQ (u - 1))) := by
      omega
    have hcast : ((truncQ (u + wd + 2)) : ℚ) ≤ ((max 0 (truncQ (u - 1))
        + max 1 (min (shape.2 : ℤ) (truncQ (u + wd + 2)) - max 0 (truncQ (u - 1))) : ℤ) : ℚ) := by
      exact_mod_cast hint
    push_cast at hcast ⊢
    linarith
  · intro hlt
    have hspW : min (shape.1 : ℤ) (truncQ (v + hh + 2)) ≤ max 0 (truncQ (v - 1))
        + max 1 (min (shape.1 : ℤ) (truncQ (v + hh + 2)) - max 0 (truncQ (v - 1))) := by
      omega
    have hsp_lt : min (shape.1 : ℤ) (truncQ (v + hh + 2)) < (shape.1 : ℤ) :=
      lt_of_le_of_lt hspW hlt
    have hsp_eq : min (shape.1 : ℤ) (truncQ (v + hh + 2)) = truncQ (v + hh + 2) := by omega
    have hgt := truncQ_gt (v + hh + 2)
    have hint : truncQ (v + hh + 2) ≤ max 0 (truncQ (v - 1))
        + max 1 (min (shape.1 : ℤ) (truncQ (v + hh + 2)) - max 0 (truncQ (v - 1))) := by
      omega
    have hcast : ((truncQ (v + hh + 2)) : ℚ) ≤ ((max 0 (truncQ (v - 1))
        + max 1 (min (shape.1 : ℤ) (truncQ (v + hh + 2)) - max 0 (truncQ (v - 1))) : ℤ) : ℚ) := by
      exact_mod_cast hint
    push_cast at hcast ⊢
    linarith

unseal Rat.mul Rat.inv Rat.add Rat.sub Rat.ofScientific in
/-- Witness for C4 at a concrete input: a north-up 40×40 raster of unit pixels
and interior bounds. -/
theorem claim_c4_window_amended_witness :
    (0 : ℚ) < 1 ∧ (-1 : ℚ) < 0 ∧ windowSafe ⟨15, 15, 25, 25⟩ ⟨1, 0, -1, 40⟩ (40, 40) :=
  ⟨by norm_num, by norm_num,
   claim_c4_window_amended ⟨15, 15, 25, 25⟩ ⟨1, 0, -1, 40⟩ (40, 40)
     (by norm_num) (by norm_num)⟩

unseal Rat.mul Rat.inv Rat.add Rat.sub Rat.ofScientific in
/-- Counterexample to C4 as stated: over a 10×10 north-up unit-pixel raster,
bounds lying wholly east of the raster give a window with column offset 89 and
width 1, which extends past the 10 raster columns — the window does not lie
within the raster dimensions; and a degenerate point bound (5,5,5,5) yields a
10×10 clamped window (22×22 before clamping, from the ten-pixel buffering),
not the claimed minimal 1×1 window. -/
theorem claim_c4_window_counterexample :
    (¬ ((get_valid_window ⟨100, 0, 102, 2⟩ ⟨1, 0, -1, 10⟩ (10, 10)).1.col_off
        + (get_valid_window ⟨100, 0, 102, 2⟩ ⟨1, 0, -1, 10⟩ (10, 10)).1.width ≤ 10)) ∧
    (get_valid_window ⟨5, 5, 5, 5⟩ ⟨1, 0, -1, 10⟩ (10, 10)).1.width = 10 ∧
    (get_valid_window ⟨5, 5, 5, 5⟩ ⟨1, 0, -1, 10⟩ (10, 10)).1.height = 10 := by
  decide
